import Mathlib

/-!
Shallow embedding of the Kirby-style game engines and the tower-defense
variant of this repository, with theorems settling the frozen claims about
the spec. Times, positions and velocities are modelled as exact rationals
(the Python floats carry exact decimal constants in every code path the
claims touch); hit points and counters are integers.

Source files embedded:
  * `agikirby0.x.x.x.py`   (namespace `Agi`)
  * `deltakirbyhdrv0.py`   (namespace `Delta`)
  * `toadsvzkoopahdrv0.py` (namespace `Tvk`)
(`ultrakirbyhdrv0.x.x1.010.21.25#.py` duplicates the `Agi` code paths cited
by the claims verbatim, so the `Agi` definitions cover both.)
-/

/-- Python `int(q)`: truncation toward zero, as applied to the rational
coordinates when building a `pygame.Rect`. -/
def pyInt (q : ℚ) : ℤ := if 0 ≤ q then ⌊q⌋ else ⌈q⌉

/-- A `pygame.Rect`: left/top corner plus width and height. -/
structure Rect where
  left : ℤ
  top : ℤ
  w : ℤ
  h : ℤ
  deriving DecidableEq, Repr

def Rect.right (r : Rect) : ℤ := r.left + r.w

def Rect.bottom (r : Rect) : ℤ := r.top + r.h

/-- Embeds `pygame.Rect.colliderect`: true when the interiors overlap
(shared edges do not collide). -/
def colliderect (a b : Rect) : Bool :=
  decide (a.left < b.right) && decide (a.right > b.left) &&
  decide (a.top < b.bottom) && decide (a.bottom > b.top)

namespace Agi

/-- The dt cap applied in the `playing` branch of `agikirby0.x.x.x.py`'s
main loop: `dt = min(dt, 0.05)`. -/
def dtMax : ℚ := 1/20

/-- Embeds `dt = min(dt, 0.05)  # Cap dt to prevent physics issues` — the clamp
at the top of the `playing` branch of `main`. -/
def clampDt (dt : ℚ) : ℚ := min dt dtMax

/-- One axis of Euler integration as performed by every entity `update`:
`self.x += self.vx * dt` returns the new coordinate. -/
def integrate (x vx dt : ℚ) : ℚ := x + vx * dt

end Agi

namespace Delta

/-- Embeds `deltakirbyhdrv0.py` main loop: `dt = clock.tick(FPS) / 1000.0`.
The raw frame time is handed to the updates with no clamp applied. -/
def frameDt (rawDt : ℚ) : ℚ := rawDt

/-- Embeds `WaddleDee` of `deltakirbyhdrv0.py`. -/
structure WaddleDee where
  x : ℚ
  y : ℚ
  speed : ℚ
  dead : Bool
  ability : Unit
  deriving DecidableEq, Repr

/-- Embeds `WaddleDee.rect`: `pygame.Rect(int(self.x - 15), int(self.y - 15), 30, 30)`. -/
def WaddleDee.rect (e : WaddleDee) : Rect :=
  ⟨pyInt (e.x - 15), pyInt (e.y - 15), 30, 30⟩

def LEVEL_LEN : ℚ := 3600

/-- Embeds `WaddleDee.update`: when alive, walk by `speed * dt` and reverse
direction at the level margins. -/
def WaddleDee.update (e : WaddleDee) (dt : ℚ) : WaddleDee :=
  if e.dead then e
  else
    let x' := e.x + e.speed * dt
    if x' < 50 ∨ x' > LEVEL_LEN - 50 then { e with x := x', speed := -e.speed }
    else { e with x := x' }

end Delta

namespace Agi

/-- Abilities of `agikirby0.x.x.x.py` (`class Ability(Enum)`). -/
inductive Ability where
  | none | fire | ice | spark | stone | sword | beam | tornado
  deriving DecidableEq, Repr

/-- The fields of `Kirby` (from `Kirby.__init__`) that the claims touch:
position (`x`, `y`; the radius is the constant 22), combat (`hp`,
`invuln_time`), ability (`ability`, `ability_cooldown`) and the inhale
system (`inhaling`, `has_enemy`, `stored_ability`; `inhale_range = 120`).
Rendering, animation and velocity fields are not modelled. -/
structure Kirby where
  x : ℚ
  y : ℚ
  hp : ℤ
  invulnTime : ℚ
  ability : Ability
  abilityCooldown : ℚ
  inhaling : Bool
  hasEnemy : Bool
  storedAbility : Ability
  deriving DecidableEq, Repr

/-- Embeds `Kirby.rect`: `pygame.Rect(int(self.x - self.r), int(self.y - self.r),
self.r * 2, self.r * 2)` with `r = 22`. -/
def Kirby.rect (k : Kirby) : Rect :=
  ⟨pyInt (k.x - 22), pyInt (k.y - 22), 44, 44⟩

/-- Embeds `Kirby.take_damage`: when `invuln_time <= 0`, lose one hp and become
invulnerable for 1.5 s; otherwise nothing happens. (Sound, particles and
the knockback velocities are omitted: they do not feed back into the
modelled fields.) -/
def Kirby.takeDamage (k : Kirby) : Kirby :=
  if k.invulnTime ≤ 0 then { k with hp := k.hp - 1, invulnTime := 3/2 } else k

/-- The timer lines at the top of `Kirby.update`:
`self.ability_cooldown = max(0, self.ability_cooldown - dt)` and
`self.invuln_time = max(0, self.invuln_time - dt)`. -/
def Kirby.tickTimers (k : Kirby) (dt : ℚ) : Kirby :=
  { k with abilityCooldown := max 0 (k.abilityCooldown - dt),
           invulnTime := max 0 (k.invulnTime - dt) }

/-- The timer lines of `Kirby.update` applied over a sequence of frames. -/
def Kirby.tickList (k : Kirby) (dts : List ℚ) : Kirby :=
  dts.foldl Kirby.tickTimers k

end Agi

namespace Delta

def FLOOR_Y : ℚ := 400

/-- The `Kirby` of `deltakirbyhdrv0.py` (position, velocity, ground flag,
hp; the radius is the constant 22). -/
structure Kirby where
  x : ℚ
  y : ℚ
  vx : ℚ
  vy : ℚ
  onGround : Bool
  hp : ℤ
  deriving DecidableEq, Repr

/-- Embeds `Kirby.rect`: `pygame.Rect(int(self.x - self.r), int(self.y - self.r),
self.r*2, self.r*2)` with `r = 22`. -/
def Kirby.rect (k : Kirby) : Rect :=
  ⟨pyInt (k.x - 22), pyInt (k.y - 22), 44, 44⟩

/-- The keyboard state read by `Kirby.update` (LEFT, RIGHT, SPACE). -/
structure Keys where
  left : Bool
  right : Bool
  space : Bool
  deriving DecidableEq, Repr

/-- Embeds `Kirby.update` of `deltakirbyhdrv0.py`: reset `vx` from the keys
(RIGHT wins over LEFT, matching the statement order), jump when SPACE is
held on the ground, apply gravity, integrate, and clamp to the floor. -/
def Kirby.update (k : Kirby) (dt : ℚ) (keys : Keys) : Kirby :=
  let vx : ℚ := if keys.right then 200 else if keys.left then -200 else 0
  let vy0 : ℚ := if keys.space ∧ k.onGround then -400 else k.vy
  let og0 : Bool := if keys.space ∧ k.onGround then false else k.onGround
  let vy1 := vy0 + 1000 * dt
  let x' := k.x + vx * dt
  let y' := k.y + vy1 * dt
  if FLOOR_Y ≤ y' then ⟨x', FLOOR_Y, vx, 0, true, k.hp⟩
  else ⟨x', y', vx, vy1, og0, k.hp⟩

/-- The per-enemy body of `deltakirbyhdrv0.py`'s main loop once the enemy
has been updated and found alive: on overlap, either a stomp (falling fast
and close to the enemy's top — bounce and kill the enemy) or contact
damage (`hp -= 1` with knockback), with no invulnerability gate. -/
def contactStep (k : Kirby) (e : WaddleDee) : Kirby × WaddleDee :=
  if colliderect e.rect k.rect then
    if 150 < k.vy ∧ k.rect.bottom - e.rect.top < 20 then
      ({ k with vy := -250, onGround := false }, { e with dead := true })
    else
      ({ k with hp := k.hp - 1, vy := -300, vx := if k.x < e.x then -200 else 200 }, e)
  else (k, e)

/-- One frame of `deltakirbyhdrv0.py`'s main loop restricted to the player
and a single enemy: `player.update`, then `enemy.update`, then — unless
the enemy is dead (`continue`) — the stomp/damage interaction. -/
def frame (k : Kirby) (e : WaddleDee) (dt : ℚ) (keys : Keys) : Kirby × WaddleDee :=
  let k1 := k.update dt keys
  let e1 := e.update dt
  if e1.dead then (k1, e1) else contactStep k1 e1

/-- Embeds `game.enemies = [e for e in game.enemies if not e.dead]` — the prune
pass of `deltakirbyhdrv0.py`'s main loop. -/
def pruneEnemies (es : List WaddleDee) : List WaddleDee :=
  es.filter (fun e => !e.dead)

end Delta

namespace Agi

/-- An event affecting the player's combat state during the playing loop:
a frame's timer decrement (`Kirby.update`) or an incoming damage attempt
(`Kirby.take_damage`, reached from any overlapping contact that frame). -/
inductive KEvent where
  | tick (dt : ℚ)
  | hit
  deriving DecidableEq, Repr

/-- Time consumed by an event (damage attempts are instantaneous). -/
def KEvent.time : KEvent → ℚ
  | .tick dt => dt
  | .hit => 0

def Kirby.applyEvent (k : Kirby) : KEvent → Kirby
  | .tick dt => k.tickTimers dt
  | .hit => k.takeDamage

def Kirby.applyEvents (k : Kirby) (es : List KEvent) : Kirby :=
  es.foldl Kirby.applyEvent k

/-- The combat state of the `Boss` base class (`agikirby0.x.x.x.py` and
`ultrakirbyhdrv0.x.x1.010.21.25#.py` define it identically):
`self.hp, self.max_hp = hp, hp` and `self.last_hit = 1.0`. -/
structure Boss where
  hp : ℤ
  maxHp : ℤ
  lastHit : ℚ
  deriving DecidableEq, Repr

/-- Embeds `Boss.take_damage(damage=1)`: only when `last_hit > 0.5` does the boss
lose hp, and the hit timer resets to 0. -/
def Boss.takeDamage (b : Boss) (damage : ℤ) : Boss :=
  if 1/2 < b.lastHit then { b with hp := b.hp - damage, lastHit := 0 } else b

/-- Embeds `self.last_hit += dt`, executed by every boss subclass `update`. -/
def Boss.tickLastHit (b : Boss) (dt : ℚ) : Boss :=
  { b with lastHit := b.lastHit + dt }

/-- The `ZeroTwo` boss: `Boss` fields plus `phase` (initially 1).
`ZeroTwo.__init__` calls `super().__init__(x, FLOOR_Y - 120, 50)`, so
`maxHp = 50`; being positive, Python's `max_hp // 2` and Lean's
`maxHp / 2` agree. -/
structure ZeroTwo where
  hp : ℤ
  maxHp : ℤ
  lastHit : ℚ
  phase : ℤ
  deriving DecidableEq, Repr

/-- Combat state of a freshly constructed `ZeroTwo(x)`. -/
def ZeroTwo.init : ZeroTwo := ⟨50, 50, 1, 1⟩

/-- Embeds `take_damage` inherited from `Boss`. -/
def ZeroTwo.takeDamage (z : ZeroTwo) (damage : ℤ) : ZeroTwo :=
  if 1/2 < z.lastHit then { z with hp := z.hp - damage, lastHit := 0 } else z

/-- The state-relevant part of `ZeroTwo.update`: `self.last_hit += dt`,
then the phase change `if self.hp < self.max_hp // 2 and self.phase == 1:
self.phase = 2` (movement, timers and projectile spawning do not touch
these fields). -/
def ZeroTwo.update (z : ZeroTwo) (dt : ℚ) : ZeroTwo :=
  let z1 := { z with lastHit := z.lastHit + dt }
  if z1.hp < z1.maxHp / 2 ∧ z1.phase = 1 then { z1 with phase := 2 } else z1

/-- An operation applied to the `ZeroTwo` boss by the playing loop. -/
inductive ZStep where
  | upd (dt : ℚ)
  | dmg (damage : ℤ)
  deriving DecidableEq, Repr

def ZeroTwo.applyStep (z : ZeroTwo) : ZStep → ZeroTwo
  | .upd dt => z.update dt
  | .dmg d => z.takeDamage d

def ZeroTwo.applySteps (z : ZeroTwo) (steps : List ZStep) : ZeroTwo :=
  steps.foldl ZeroTwo.applyStep z

/-- The combat fields of the `Enemy` base class of `agikirby0.x.x.x.py`:
position, `hp`, `dead`, and the carried `ability` tag. -/
structure Enemy where
  x : ℚ
  y : ℚ
  hp : ℤ
  dead : Bool
  ability : Ability
  deriving DecidableEq, Repr

/-- Embeds `Enemy.rect`: `pygame.Rect(int(self.x - 15), int(self.y - 15), 30, 30)`. -/
def Enemy.rect (e : Enemy) : Rect :=
  ⟨pyInt (e.x - 15), pyInt (e.y - 15), 30, 30⟩

/-- Embeds `Enemy.take_damage(damage=1)`: `self.hp -= damage;
if self.hp <= 0: self.dead = True` (particles/sound omitted). -/
def Enemy.takeDamage (e : Enemy) (damage : ℤ) : Enemy :=
  let hp' := e.hp - damage
  if hp' ≤ 0 then { e with hp := hp', dead := true } else { e with hp := hp' }

/-- The fields of `Projectile` that its collision pass reads: position,
`damage` and the `dead` flag. -/
structure Projectile where
  x : ℚ
  y : ℚ
  damage : ℤ
  dead : Bool
  deriving DecidableEq, Repr

/-- Embeds `Projectile.rect`: `pygame.Rect(int(self.x - 10), int(self.y - 10), 20, 20)`. -/
def Projectile.rect (p : Projectile) : Rect :=
  ⟨pyInt (p.x - 10), pyInt (p.y - 10), 20, 20⟩

/-- The `for enemy in game.enemies:` loop inside the player-projectile
branch of the playing loop: the first enemy that is alive and overlaps the
projectile takes its damage, the projectile is marked dead and the loop
breaks. -/
def projEnemyPass (p : Projectile) : List Enemy → List Enemy × Projectile
  | [] => ([], p)
  | e :: rest =>
      if !e.dead && colliderect e.rect p.rect then
        (e.takeDamage p.damage :: rest, { p with dead := true })
      else
        let r := projEnemyPass p rest
        (e :: r.1, r.2)

/-- The `# Hit boss` branch that follows the enemy loop: when a boss is
present with positive hp and its rect overlaps the projectile's, it takes
the damage and the projectile is marked dead. The projectile's `dead` flag
is NOT consulted here — this branch runs even when the enemy loop above
already consumed the projectile. `brect` stands for the subclass-specific
`boss.rect()`. -/
def projBossCheck (p : Projectile) (b : Boss) (brect : Rect) : Boss × Projectile :=
  if 0 < b.hp ∧ colliderect brect p.rect then
    (b.takeDamage p.damage, { p with dead := true })
  else (b, p)

/-- One frame's collision pass for a single player-owned projectile:
the enemy loop, then the boss check (`if game.boss and game.boss.hp > 0`). -/
def projPass (p : Projectile) (es : List Enemy) (boss : Option (Boss × Rect)) :
    List Enemy × Option (Boss × Rect) × Projectile :=
  let r := projEnemyPass p es
  match boss with
  | Option.none => (r.1, Option.none, r.2)
  | Option.some (b, br) =>
      let rb := projBossCheck r.2 b br
      (r.1, Option.some (rb.1, br), rb.2)

/-- The per-enemy body of the playing loop's `for enemy in game.enemies[:]`
pass. Dead enemies are skipped whole. Otherwise the enemy updates and, on
overlap with the player, is either inhaled (pulled toward the player and,
within distance 30, swallowed: the enemy dies and the player stores its
ability) or damages the player. The subclass `update` methods and the
pull displacement move only the enemy's position (their arithmetic uses
`math.sin`/`math.hypot` and `random`, which have no rational form), so
both are taken as position-valued parameters `upd` and `pull`; the
distance guards `distance < 120` and `distance < 30` are expressed on
squared distances, which is equivalent. -/
def enemyLoopBody (upd : Enemy → ℚ × ℚ) (pull : Kirby → Enemy → ℚ × ℚ)
    (k : Kirby) (e : Enemy) : Kirby × Enemy :=
  if e.dead then (k, e)
  else
    let e1 : Enemy := { e with x := (upd e).1, y := (upd e).2 }
    if colliderect e1.rect k.rect then
      if k.inhaling ∧ k.ability = Ability.none then
        let dsq := (e1.x - k.x) ^ 2 + (e1.y - k.y) ^ 2
        if dsq < 120 ^ 2 then
          let e2 : Enemy := { e1 with x := (pull k e1).1, y := (pull k e1).2 }
          if dsq < 30 ^ 2 then
            ({ k with hasEnemy := true, storedAbility := e2.ability },
             { e2 with dead := true })
          else (k, e2)
        else (k, e1)
      else (k.takeDamage, e1)
    else (k, e1)

/-- The inhale branch of `Kirby.update`: holding the inhale key with no
ability keeps/starts inhaling; releasing it while `inhaling and has_enemy`
swallows — the stored ability becomes the player's — and in either case
`inhaling` ends. -/
def Kirby.inhaleStep (k : Kirby) (inhaleDown : Bool) : Kirby :=
  if inhaleDown ∧ k.ability = Ability.none then { k with inhaling := true }
  else
    let k1 :=
      if k.inhaling ∧ k.hasEnemy then
        { k with ability := k.storedAbility, hasEnemy := false }
      else k
    { k1 with inhaling := false }

/-- Embeds `Kirby.use_ability` starts with `self.ability_cooldown = 0.5`; the
per-ability branches then append projectiles and particles to the global
lists and apply self-buffs. -/
def Kirby.useAbility (k : Kirby) : Kirby := { k with abilityCooldown := 1/2 }

/-- The ability-key branch of `Kirby.update`:
`if inputs.just_pressed("ability") and self.ability != Ability.NONE:
if self.ability_cooldown <= 0: self.use_ability()`. The second component
counts how many times the body of `use_ability` — the only place that
spawns ability projectiles/particles — has executed. -/
def abilityPress (k : Kirby) (uses : ℕ) : Kirby × ℕ :=
  if k.ability ≠ Ability.none then
    if k.abilityCooldown ≤ 0 then (k.useAbility, uses + 1) else (k, uses)
  else (k, uses)

end Agi

namespace Tvk

/-- The fields of the `Enemy` sprite of `toadsvzkoopahdrv0.py` read and
written by `take_damage`, `apply_slow` and `handle_projectile_hits`:
lane `row`, screen `rect`, `hp`/`armor_hp` (Python floats) and the slow
state. -/
structure Enemy where
  row : ℤ
  rect : Rect
  hp : ℚ
  armorHp : ℚ
  slowFactor : ℚ
  slowTimer : ℚ
  deriving DecidableEq, Repr

/-- Embeds `Enemy.take_damage(dmg)`: armor absorbs first
(`absorbed = min(self.armor_hp, dmg)`), remaining damage hits hp.
(`self.kill()` on `hp <= 0` removes the sprite from the groups; the group
membership is handled where the groups are modelled.) -/
def Enemy.takeDamage (e : Enemy) (dmg : ℚ) : Enemy :=
  let absorbed := if 0 < e.armorHp then min e.armorHp dmg else 0
  let armor' := e.armorHp - absorbed
  let dmg' := dmg - absorbed
  if 0 < dmg' then { e with armorHp := armor', hp := e.hp - dmg' }
  else { e with armorHp := armor' }

/-- Embeds `Enemy.apply_slow(factor, duration)`. -/
def Enemy.applySlow (e : Enemy) (factor duration : ℚ) : Enemy :=
  { e with slowFactor := max e.slowFactor factor,
           slowTimer := max e.slowTimer duration }

/-- The fields of `Projectile` read by `handle_projectile_hits`. -/
structure Proj where
  row : ℤ
  rect : Rect
  damage : ℚ
  slowFactor : ℚ
  slowDuration : ℚ
  deriving DecidableEq, Repr

/-- The effect of one projectile hit on an enemy inside
`handle_projectile_hits`: `take_damage`, then `apply_slow` when the
projectile carries a slow. -/
def hitEffect (p : Proj) (e : Enemy) : Enemy :=
  let e1 := e.takeDamage p.damage
  if 0 < p.slowFactor then e1.applySlow p.slowFactor p.slowDuration else e1

/-- The inner `for e in enemy_sprites:` loop of `handle_projectile_hits`
for one projectile: the first enemy in the same row whose rect overlaps
takes the hit, the projectile is killed (`proj.kill()`) and the loop
breaks. Returns the updated enemies and whether the projectile was
killed. -/
def handleHitsOne (p : Proj) : List Enemy → List Enemy × Bool
  | [] => ([], false)
  | e :: rest =>
      if e.row = p.row ∧ colliderect p.rect e.rect then
        (hitEffect p e :: rest, true)
      else
        let r := handleHitsOne p rest
        (e :: r.1, r.2)

/-- The wave-direction fields of `LevelManager.__init__`. -/
structure LevelManager where
  time : ℚ
  duration : ℚ
  finalWaveSpawned : Bool
  spawnTimer : ℚ
  difficulty : ℚ
  finishedSpawning : Bool
  waveNumber : ℤ
  enemiesInWave : ℤ
  maxEnemiesPerWave : ℤ
  deriving DecidableEq, Repr

/-- Embeds `LevelManager()`: `time=0, duration=120, final_wave_spawned=False,
spawn_timer=2, difficulty=0, finished_spawning=False, wave_number=1,
enemies_in_wave=0, max_enemies_per_wave=10`. -/
def LevelManager.init : LevelManager :=
  ⟨0, 120, false, 2, 0, false, 1, 0, 10⟩

/-- Embeds `LevelManager.update(dt)`. `enemyCount` is `len(enemy_sprites)` at the
moment of the call; `spawn_enemy` and `final_wave` add sprites to the
groups (and `final_wave` sets the flag) but touch none of the fields
modelled here, so the spawns themselves are not tracked in this state. -/
def LevelManager.spawnPhase (lm : LevelManager) (dt : ℚ) (enemyCount : ℕ) :
    LevelManager :=
  if lm.finalWaveSpawned then lm
  else
    let a : LevelManager := { lm with spawnTimer := lm.spawnTimer - dt }
    let b : LevelManager :=
      if a.spawnTimer ≤ 0 ∧ a.enemiesInWave < a.maxEnemiesPerWave then
        { a with enemiesInWave := a.enemiesInWave + 1,
                 spawnTimer := max (4/5) (2 - (6/5) * a.difficulty) }
      else a
    if b.maxEnemiesPerWave ≤ b.enemiesInWave ∧ enemyCount = 0 then
      { b with waveNumber := b.waveNumber + 1,
               maxEnemiesPerWave := min 30 (10 + (b.waveNumber + 1) * 5),
               enemiesInWave := 0,
               spawnTimer := 5 }
    else b

def LevelManager.update (lm : LevelManager) (dt : ℚ) (enemyCount : ℕ) : LevelManager :=
  let a : LevelManager :=
    { lm with time := lm.time + dt, difficulty := min 1 ((lm.time + dt) / lm.duration) }
  let b : LevelManager := a.spawnPhase dt enemyCount
  let c : LevelManager :=
    if b.duration ≤ b.time ∧ ¬ b.finalWaveSpawned then
      { b with finalWaveSpawned := true }
    else b
  if c.finalWaveSpawned ∧ enemyCount = 0 then
    { c with finishedSpawning := true }
  else c

/-- The placement state touched by `try_place`: the `grid` of cells
(`None` or a plant id), the global `sun_count`, the size of the plant
sprite group, and the clicked card's `last_planted_ms`. -/
structure PlaceState where
  grid : List (List (Option ℕ))
  sunCount : ℤ
  plantSprites : ℕ
  cardLastPlantedMs : Option ℤ
  deriving DecidableEq, Repr

/-- Cell lookup `grid[row][col]` (`none` when an index is out of range,
where Python would raise). -/
def cellAt (g : List (List (Option ℕ))) (row col : ℕ) : Option (Option ℕ) :=
  (g.get? row).bind fun r => r.get? col

/-- Embeds `try_place(row, col, plant_cls, card)`: occupied cell → `False`;
unaffordable (`sun_count < plant_cls.COST`) → `False`; otherwise build the
plant, install it in the cell, add it to the sprite groups, deduct the
cost, stamp the card and return `True`. `pid` stands for the freshly
constructed plant object, `cost` for `plant_cls.COST`, `now` for
`pygame.time.get_ticks()`, and `card` for whether a card was passed. -/
def tryPlace (s : PlaceState) (row col : ℕ) (cost : ℤ) (pid : ℕ)
    (card : Bool) (now : ℤ) : PlaceState × Bool :=
  match cellAt s.grid row col with
  | Option.some (Option.some _) => (s, false)
  | _ =>
      if s.sunCount < cost then (s, false)
      else
        ({ s with
            grid := s.grid.set row ((s.grid.getD row []).set col (Option.some pid)),
            sunCount := s.sunCount - cost,
            plantSprites := s.plantSprites + 1,
            cardLastPlantedMs := if card then Option.some now else s.cardLastPlantedMs },
         true)

end Tvk

theorem Agi.Kirby.tickList_hp (k : Agi.Kirby) (dts : List ℚ) :
    (k.tickList dts).hp = k.hp := by
  induction dts generalizing k with
  | nil => rfl
  | cons d ds ih => simpa [Agi.Kirby.tickList, List.foldl] using ih (k.tickTimers d)

theorem Agi.Kirby.tickList_invuln_lower (k : Agi.Kirby) (dts : List ℚ) :
    k.invulnTime - dts.sum ≤ (k.tickList dts).invulnTime := by
  induction dts generalizing k with
  | nil => simp [Agi.Kirby.tickList]
  | cons d ds ih =>
      have h1 : k.invulnTime - (d + ds.sum) ≤ (k.tickTimers d).invulnTime - ds.sum := by
        have h2 : k.invulnTime - d ≤ max 0 (k.invulnTime - d) := le_max_right _ _
        simp only [Agi.Kirby.tickTimers] at h2 ⊢
        linarith
      calc k.invulnTime - (d :: ds).sum
          ≤ (k.tickTimers d).invulnTime - ds.sum := by simpa using h1
        _ ≤ ((k.tickTimers d).tickList ds).invulnTime := ih _
        _ = (k.tickList (d :: ds)).invulnTime := rfl

theorem Agi.Kirby.tickList_cooldown_lower (k : Agi.Kirby) (dts : List ℚ) :
    k.abilityCooldown - dts.sum ≤ (k.tickList dts).abilityCooldown := by
  induction dts generalizing k with
  | nil => simp [Agi.Kirby.tickList]
  | cons d ds ih =>
      have h1 : k.abilityCooldown - (d + ds.sum) ≤ (k.tickTimers d).abilityCooldown - ds.sum := by
        have h2 : k.abilityCooldown - d ≤ max 0 (k.abilityCooldown - d) := le_max_right _ _
        simp only [Agi.Kirby.tickTimers] at h2 ⊢
        linarith
      calc k.abilityCooldown - (d :: ds).sum
          ≤ (k.tickTimers d).abilityCooldown - ds.sum := by simpa using h1
        _ ≤ ((k.tickTimers d).tickList ds).abilityCooldown := ih _
        _ = (k.tickList (d :: ds)).abilityCooldown := rfl

/-- C1: the claim states that every frame of the playing loop clamps dt
before entity updates. `agikirby0.x.x.x.py` does (`dt = min(dt, 0.05)`),
but `deltakirbyhdrv0.py`'s main loop — cited by the claim — feeds the raw
`clock.tick` result straight into the updates: a 1-second stall moves a
walker (speed 60) by 60 pixels, far beyond `|speed| * dt_max = 3`. -/
theorem C1_counterexample :
    Delta.frameDt 1 ≠ Agi.clampDt 1 ∧
    (Delta.WaddleDee.update ⟨300, 400, 60, false, ()⟩ (Delta.frameDt 1)).x - 300 = 60 ∧
    ¬ |(60 : ℚ)| ≤ |(60 : ℚ)| * Agi.dtMax := by
  refine ⟨?_, ?_, ?_⟩
  · norm_num [Delta.frameDt, Agi.clampDt, Agi.dtMax, min_def]
  · norm_num [Delta.WaddleDee.update, Delta.frameDt, Delta.LEVEL_LEN]
  · norm_num [Agi.dtMax]

/-- C1 amended: in `agikirby0.x.x.x.py`'s playing loop dt is clamped to
`dtMax = 0.05`, so a single integration step moves a coordinate by at most
`|vx| * dtMax`; `deltakirbyhdrv0.py`'s main loop applies no clamp and
passes the raw frame time through unchanged. -/
theorem C1_amended_clamp_bound (x vx dt : ℚ) (hdt : 0 ≤ dt) :
    |Agi.integrate x vx (Agi.clampDt dt) - x| ≤ |vx| * Agi.dtMax ∧
    ∀ raw : ℚ, Delta.frameDt raw = raw := by
  constructor
  · have h0 : 0 ≤ Agi.clampDt dt := le_min hdt (by norm_num [Agi.dtMax])
    have h1 : Agi.clampDt dt ≤ Agi.dtMax := min_le_right _ _
    have h2 : |Agi.integrate x vx (Agi.clampDt dt) - x| = |vx| * Agi.clampDt dt := by
      simp [Agi.integrate, abs_mul, abs_of_nonneg h0]
    rw [h2]
    exact mul_le_mul_of_nonneg_left h1 (abs_nonneg _)
  · intro raw; rfl

/-- Witness for C1's amended theorem at `x = 0`, `vx = 60`, `dt = 10`. -/
theorem C1_amended_witness :
    (0 : ℚ) ≤ 10 ∧
    (|Agi.integrate 0 60 (Agi.clampDt 10) - 0| ≤ |(60 : ℚ)| * Agi.dtMax ∧
     ∀ raw : ℚ, Delta.frameDt raw = raw) :=
  ⟨by norm_num, C1_amended_clamp_bound 0 60 10 (by norm_num)⟩

theorem Agi.Kirby.applyEvents_hp_of_invuln (es : List Agi.KEvent) :
    ∀ k : Agi.Kirby, (∀ e ∈ es, 0 ≤ e.time) →
    (es.map Agi.KEvent.time).sum < k.invulnTime →
    (k.applyEvents es).hp = k.hp := by
  induction es with
  | nil => intro k _ _; rfl
  | cons e rest ih =>
      intro k hpos hsum
      have hrest_nonneg : 0 ≤ (rest.map Agi.KEvent.time).sum := by
        apply List.sum_nonneg
        intro t ht
        obtain ⟨ev, hev, rfl⟩ := List.mem_map.mp ht
        exact hpos ev (List.mem_cons_of_mem _ hev)
      cases e with
      | tick dt =>
          have hsum' : (rest.map Agi.KEvent.time).sum < (k.tickTimers dt).invulnTime := by
            have h1 : (rest.map Agi.KEvent.time).sum < k.invulnTime - dt := by
              simp only [List.map_cons, List.sum_cons, Agi.KEvent.time] at hsum
              linarith
            have h2 : k.invulnTime - dt ≤ max 0 (k.invulnTime - dt) := le_max_right _ _
            simp only [Agi.Kirby.tickTimers]
            linarith
          have := ih (k.tickTimers dt) (fun ev hev => hpos ev (List.mem_cons_of_mem _ hev)) hsum'
          simpa [Agi.Kirby.applyEvents, List.foldl, Agi.Kirby.applyEvent, Agi.Kirby.tickTimers]
            using this
      | hit =>
          have hinv : 0 < k.invulnTime := by
            simp only [List.map_cons, List.sum_cons, Agi.KEvent.time] at hsum
            linarith
          have hno : k.takeDamage = k := by
            simp [Agi.Kirby.takeDamage, not_le.mpr hinv]
          have := ih k (fun ev hev => hpos ev (List.mem_cons_of_mem _ hev)) (by
            simp only [List.map_cons, List.sum_cons, Agi.KEvent.time] at hsum
            linarith)
          simpa [Agi.Kirby.applyEvents, List.foldl, Agi.Kirby.applyEvent, hno] using this

/-- C3: as stated the claim fails on `deltakirbyhdrv0.py` (cited by the
claim): contact damage there is `hp -= 1` with no invulnerability gate, so
two consecutive overlapping frames 1/60 s apart — well inside any invuln
window, in particular the 1.5 s one of `agikirby0.x.x.x.py` — decrement the
player's hp twice (6 to 4), not exactly once. -/
theorem C3_counterexample :
    (let s1 := Delta.frame ⟨100, 400, 0, 0, true, 6⟩ ⟨100, 400, 60, false, ()⟩
        (1/60) ⟨false, false, false⟩
     let s2 := Delta.frame s1.1 s1.2 (1/60) ⟨false, false, false⟩
     s2.1.hp = 4) ∧ (1/60 + 1/60 : ℚ) < 3/2 := by
  constructor
  · have h1 : Delta.frame ⟨100, 400, 0, 0, true, 6⟩ ⟨100, 400, 60, false, ()⟩
        (1/60) ⟨false, false, false⟩
        = (⟨100, 400, -200, -300, true, 5⟩, ⟨101, 400, 60, false, ()⟩) := by
      norm_num [Delta.frame, Delta.Kirby.update, Delta.WaddleDee.update, Delta.contactStep,
        Delta.Kirby.rect, Delta.WaddleDee.rect, Delta.FLOOR_Y, Delta.LEVEL_LEN,
        colliderect, Rect.right, Rect.bottom, pyInt]
    show (Delta.frame (Delta.frame _ _ _ _).1 (Delta.frame _ _ _ _).2 _ _).1.hp = 4
    rw [h1]
    norm_num [Delta.frame, Delta.Kirby.update, Delta.WaddleDee.update, Delta.contactStep,
      Delta.Kirby.rect, Delta.WaddleDee.rect, Delta.FLOOR_Y, Delta.LEVEL_LEN,
      colliderect, Rect.right, Rect.bottom, pyInt]
  · norm_num

/-- C3 amended: in `agikirby0.x.x.x.py`, `Kirby.take_damage` is gated by
`invuln_time` (set to 1.5 on a successful hit, decremented each update):
a successful hit decrements hp by one, and any further sequence of frame
ticks and damage attempts whose elapsed time stays below 1.5 s leaves hp
at that value — exactly one decrement per window. `deltakirbyhdrv0.py`
applies contact damage with no invulnerability (see the counterexample). -/
theorem C3_amended_invuln_window (k : Agi.Kirby) (hk : k.invulnTime ≤ 0)
    (es : List Agi.KEvent) (hpos : ∀ e ∈ es, 0 ≤ e.time)
    (hsum : (es.map Agi.KEvent.time).sum < 3/2) :
    k.takeDamage.hp = k.hp - 1 ∧ (k.takeDamage.applyEvents es).hp = k.hp - 1 := by
  have h1 : k.takeDamage = { k with hp := k.hp - 1, invulnTime := 3/2 } := by
    simp [Agi.Kirby.takeDamage, hk]
  refine ⟨by rw [h1], ?_⟩
  have h2 : (es.map Agi.KEvent.time).sum < k.takeDamage.invulnTime := by
    rw [h1]; exact hsum
  rw [Agi.Kirby.applyEvents_hp_of_invuln es k.takeDamage hpos h2, h1]

/-- Witness for C3's amended theorem: a hit at invulnerability 0, then a
0.1 s frame, a blocked hit, another 0.1 s frame and another blocked hit,
leaves hp at 5 = 6 - 1. -/
theorem C3_amended_witness :
    (let k : Agi.Kirby := ⟨100, 400, 6, 0, Agi.Ability.none, 0, false, false, Agi.Ability.none⟩
     let es : List Agi.KEvent := [Agi.KEvent.tick (1/10), Agi.KEvent.hit,
        Agi.KEvent.tick (1/10), Agi.KEvent.hit]
     k.takeDamage.hp = k.hp - 1 ∧ (k.takeDamage.applyEvents es).hp = k.hp - 1) :=
  C3_amended_invuln_window ⟨100, 400, 6, 0, Agi.Ability.none, 0, false, false, Agi.Ability.none⟩
    (by norm_num)
    [Agi.KEvent.tick (1/10), Agi.KEvent.hit, Agi.KEvent.tick (1/10), Agi.KEvent.hit]
    (by intro e he; fin_cases he <;> norm_num [Agi.KEvent.time])
    (by norm_num [Agi.KEvent.time])

theorem Agi.ZeroTwo.phase_two_stable (steps : List Agi.ZStep) :
    ∀ z : Agi.ZeroTwo, z.phase = 2 → (z.applySteps steps).phase = 2 := by
  induction steps with
  | nil => intro z h; exact h
  | cons s rest ih =>
      intro z h
      have hstep : (z.applyStep s).phase = 2 := by
        cases s with
        | upd dt =>
            simp only [Agi.ZeroTwo.applyStep, Agi.ZeroTwo.update]
            have : ¬ (z.hp < z.maxHp / 2 ∧ z.phase = 1) := by
              rintro ⟨-, h1⟩; rw [h] at h1; norm_num at h1
            simp [this, h]
        | dmg d =>
            simp only [Agi.ZeroTwo.applyStep, Agi.ZeroTwo.takeDamage]
            split <;> simp [h]
      simpa [Agi.ZeroTwo.applySteps, List.foldl] using ih (z.applyStep s) hstep

/-- C4: the claim's boundary is wrong. A `take_damage` call dropping hp
from 26 to exactly `max_hp/2 = 25` crosses from `> max_hp/2` to
`<= max_hp/2`, yet the guard `self.hp < self.max_hp // 2` is false at 25,
so the next `update` leaves `phase = 1`: no flip happens. -/
theorem C4_counterexample :
    (let z : Agi.ZeroTwo := ⟨26, 50, 1, 1⟩
     let z1 := z.takeDamage 1
     z1.hp = 25 ∧ (25 : ℤ) ≤ z.maxHp / 2 ∧ z.maxHp / 2 < z.hp ∧
     (z1.update (1/60)).phase = 1) := by
  refine ⟨?_, ?_, ?_, ?_⟩
  · norm_num [Agi.ZeroTwo.takeDamage]
  · norm_num
  · norm_num
  · norm_num [Agi.ZeroTwo.takeDamage, Agi.ZeroTwo.update]

/-- C4 amended: the one-time transition triggers strictly below half
health: whenever `phase = 1` and `hp < max_hp // 2`, the next `update`
sets `phase = 2` (take_damage itself never changes `phase`), and once
`phase = 2` no sequence of further updates or damage calls ever reverts
it to 1. -/
theorem C4_amended_phase_transition (z : Agi.ZeroTwo) (dt : ℚ)
    (steps : List Agi.ZStep) (h1 : z.phase = 1) (hhp : z.hp < z.maxHp / 2) :
    (z.update dt).phase = 2 ∧
    (∀ d : ℤ, (z.takeDamage d).phase = z.phase) ∧
    ∀ w : Agi.ZeroTwo, w.phase = 2 → (w.applySteps steps).phase = 2 := by
  refine ⟨?_, ?_, fun w hw => Agi.ZeroTwo.phase_two_stable steps w hw⟩
  · simp only [Agi.ZeroTwo.update]
    simp [h1, hhp]
  · intro d
    simp only [Agi.ZeroTwo.takeDamage]
    split <;> rfl

/-- Witness for C4's amended theorem: `ZeroTwo` at 24 hp (below 25) in
phase 1; one update flips the phase, and a later update plus damage call
keep it at 2. -/
theorem C4_amended_witness :
    ((Agi.ZeroTwo.update ⟨24, 50, 0, 1⟩ (1/60)).phase = 2 ∧
     (∀ d : ℤ, (Agi.ZeroTwo.takeDamage ⟨24, 50, 0, 1⟩ d).phase =
        (⟨24, 50, 0, 1⟩ : Agi.ZeroTwo).phase) ∧
     ∀ w : Agi.ZeroTwo, w.phase = 2 →
       (w.applySteps [Agi.ZStep.upd 1, Agi.ZStep.dmg 3]).phase = 2) :=
  C4_amended_phase_transition ⟨24, 50, 0, 1⟩ (1/60) [Agi.ZStep.upd 1, Agi.ZStep.dmg 3]
    rfl (by norm_num)

/-- C5: `Boss.take_damage` (identical in `agikirby0.x.x.x.py` and
`ultrakirbyhdrv0.x.x1.010.21.25#.py`) decrements hp only when the
`last_hit` timer — reset to 0 on each successful hit and advanced by dt in
`update` — exceeds 0.5, hence at least 0.5 s after the previous successful
hit; and two `take_damage(1)` calls separated by 0.1 s of updates lower hp
by exactly 1. -/
theorem C5_take_damage_cooldown (b : Agi.Boss) (hb : 1/2 < b.lastHit) :
    (∀ c : Agi.Boss, ∀ d : ℤ, (c.takeDamage d).hp ≠ c.hp → 1/2 ≤ c.lastHit) ∧
    (((b.takeDamage 1).tickLastHit (1/10)).takeDamage 1).hp = b.hp - 1 := by
  constructor
  · intro c d hne
    by_cases hc : 1/2 < c.lastHit
    · exact le_of_lt hc
    · simp only [Agi.Boss.takeDamage] at hne
      rw [if_neg hc] at hne
      exact absurd rfl hne
  · have h1 : b.takeDamage 1 = { b with hp := b.hp - 1, lastHit := 0 } := by
      simp only [Agi.Boss.takeDamage]
      rw [if_pos hb]
    rw [h1]
    simp only [Agi.Boss.tickLastHit, Agi.Boss.takeDamage]
    norm_num

/-- Witness for C5 at a freshly constructed boss (`last_hit = 1.0`,
`hp = 20`): the pair of hits 0.1 s apart leaves 19 hp. -/
theorem C5_witness :
    ((1 : ℚ)/2 < (1 : ℚ)) ∧
    ((∀ c : Agi.Boss, ∀ d : ℤ, (c.takeDamage d).hp ≠ c.hp → 1/2 ≤ c.lastHit) ∧
     (((Agi.Boss.takeDamage ⟨20, 20, 1⟩ 1).tickLastHit (1/10)).takeDamage 1).hp =
       (⟨20, 20, 1⟩ : Agi.Boss).hp - 1) :=
  ⟨by norm_num, C5_take_damage_cooldown ⟨20, 20, 1⟩ (by norm_num)⟩

theorem Tvk.handleHitsOne_spec (p : Tvk.Proj) (es : List Tvk.Enemy) :
    (Tvk.handleHitsOne p es).1 = es ∨
    ∃ i e, es.get? i = some e ∧
      (Tvk.handleHitsOne p es).1 = es.set i (Tvk.hitEffect p e) ∧
      (Tvk.handleHitsOne p es).2 = true := by
  induction es with
  | nil => exact Or.inl rfl
  | cons e rest ih =>
      simp only [Tvk.handleHitsOne]
      split
      · exact Or.inr ⟨0, e, rfl, rfl, rfl⟩
      · rcases ih with h1 | ⟨i, e', hget, hset, hkill⟩
        · exact Or.inl (by simpa using h1)
        · refine Or.inr ⟨i + 1, e', by simpa using hget, ?_, by simpa using hkill⟩
          show e :: (Tvk.handleHitsOne p rest).1 = (e :: rest).set (i + 1) (Tvk.hitEffect p e')
          rw [hset]
          rfl

theorem Agi.projEnemyPass_spec (p : Agi.Projectile) (es : List Agi.Enemy) :
    ((Agi.projEnemyPass p es).1 = es ∧ (Agi.projEnemyPass p es).2 = p) ∨
    ∃ i e, es.get? i = some e ∧ e.dead = false ∧
      (Agi.projEnemyPass p es).1 = es.set i (e.takeDamage p.damage) ∧
      (Agi.projEnemyPass p es).2 = { p with dead := true } := by
  induction es with
  | nil => exact Or.inl ⟨rfl, rfl⟩
  | cons e rest ih =>
      simp only [Agi.projEnemyPass]
      split
      case isTrue h =>
        refine Or.inr ⟨0, e, rfl, ?_, rfl, rfl⟩
        have h2 := (Bool.and_eq_true _ _).mp h
        simpa using h2.1
      case isFalse h =>
        rcases ih with ⟨h1, h2⟩ | ⟨i, e', hget, hdead, hset, hp2⟩
        · exact Or.inl ⟨by simpa using h1, by simpa using h2⟩
        · refine Or.inr ⟨i + 1, e', by simpa using hget, hdead, ?_, by simpa using hp2⟩
          show e :: (Agi.projEnemyPass p rest).1
              = (e :: rest).set (i + 1) (e'.takeDamage p.damage)
          rw [hset]
          rfl

/-- C2: the claim fails on the kirby main loops. The boss check that
follows the enemy loop does not consult `proj.dead`, so a projectile that
overlaps both an enemy and the boss damages both in the same frame: here
the first enemy's hp drops 3 to 1 and the boss's hp drops 50 to 48 from
one projectile in one collision pass. -/
theorem C2_counterexample :
    (let p : Agi.Projectile := ⟨100, 100, 2, false⟩
     let es : List Agi.Enemy := [⟨100, 100, 3, false, Agi.Ability.fire⟩]
     let r := Agi.projPass p es (Option.some (⟨50, 50, 1⟩, ⟨40, 40, 120, 120⟩))
     r.1 = [⟨100, 100, 1, false, Agi.Ability.fire⟩] ∧
     r.2.1 = Option.some (⟨48, 50, 0⟩, ⟨40, 40, 120, 120⟩) ∧
     r.2.2.dead = true) := by
  refine ⟨?_, ?_, ?_⟩ <;>
    norm_num [Agi.projPass, Agi.projEnemyPass, Agi.projBossCheck, Agi.Enemy.takeDamage,
      Agi.Boss.takeDamage, Agi.Enemy.rect, Agi.Projectile.rect, colliderect,
      Rect.right, Rect.bottom, pyInt]

/-- C2 amended: within a single enemy collection the claim holds — in
`toadsvzkoopahdrv0.py`'s `handle_projectile_hits` a projectile hits at
most the first row-matching overlapping enemy and is then killed, and in
the kirby playing loops the enemy loop damages at most the first live
overlapping enemy and marks the projectile dead; but in the kirby loops
the subsequent boss check ignores `proj.dead`, so the boss can be a second
target of the same projectile in the same frame (see the counterexample). -/
theorem C2_amended_single_target (tp : Tvk.Proj) (tes : List Tvk.Enemy)
    (p : Agi.Projectile) (es : List Agi.Enemy) :
    ((Tvk.handleHitsOne tp tes).1 = tes ∨
      ∃ i e, tes.get? i = some e ∧
        (Tvk.handleHitsOne tp tes).1 = tes.set i (Tvk.hitEffect tp e)) ∧
    ((Agi.projEnemyPass p es).1 = es ∨
      ∃ i e, es.get? i = some e ∧
        (Agi.projEnemyPass p es).1 = es.set i (e.takeDamage p.damage) ∧
        (Agi.projEnemyPass p es).2.dead = true) := by
  constructor
  · rcases Tvk.handleHitsOne_spec tp tes with h | ⟨i, e, h1, h2, h3⟩
    · exact Or.inl h
    · exact Or.inr ⟨i, e, h1, h2⟩
  · rcases Agi.projEnemyPass_spec p es with ⟨h1, h2⟩ | ⟨i, e, h1, _, h3, h4⟩
    · exact Or.inl h1
    · exact Or.inr ⟨i, e, h1, h3, by rw [h4]⟩

theorem Agi.projEnemyPass_dead_skip (p : Agi.Projectile) :
    ∀ (es : List Agi.Enemy) (i : ℕ) (e : Agi.Enemy),
    es.get? i = some e → e.dead = true → (Agi.projEnemyPass p es).1.get? i = some e := by
  intro es
  induction es with
  | nil => intro i e hi _; simp at hi
  | cons e0 rest ih =>
      intro i e hi hd
      simp only [Agi.projEnemyPass]
      split
      case isTrue h =>
        cases i with
        | zero =>
            have h2 := (Bool.and_eq_true _ _).mp h
            have h0 : e0 = e := by simpa using hi
            rw [h0] at h2
            rw [hd] at h2
            simp at h2
        | succ j => simpa using hi
      case isFalse h =>
        cases i with
        | zero => simpa using hi
        | succ j =>
            have := ih j e (by simpa using hi) hd
            simpa using this

/-- C6: a dead entity takes part in no further combat. The enemy pass of
the playing loop skips it whole, the projectile pass never selects it,
`take_damage` never clears the `dead` flag, and `deltakirbyhdrv0.py`'s
prune pass (`[e for e in game.enemies if not e.dead]`) retains exactly the
live enemies, so every dead enemy is dropped from the collection. -/
theorem C6_dead_exclusion (upd : Agi.Enemy → ℚ × ℚ)
    (pull : Agi.Kirby → Agi.Enemy → ℚ × ℚ) (k : Agi.Kirby)
    (e : Agi.Enemy) (hdead : e.dead = true)
    (p : Agi.Projectile) (es : List Agi.Enemy) (i : ℕ) (e' : Agi.Enemy)
    (hi : es.get? i = some e') (hd' : e'.dead = true)
    (d : ℤ) (des : List Delta.WaddleDee) :
    Agi.enemyLoopBody upd pull k e = (k, e) ∧
    (Agi.projEnemyPass p es).1.get? i = some e' ∧
    (e.takeDamage d).dead = true ∧
    (∀ w ∈ Delta.pruneEnemies des, w.dead = false) ∧
    (∀ w : Delta.WaddleDee, w.dead = true → w ∉ Delta.pruneEnemies des) := by
  refine ⟨?_, Agi.projEnemyPass_dead_skip p es i e' hi hd', ?_, ?_, ?_⟩
  · simp [Agi.enemyLoopBody, hdead]
  · simp only [Agi.Enemy.takeDamage]
    split
    · rfl
    · simpa using hdead
  · intro w hw
    have := List.mem_filter.mp hw
    simpa using this.2
  · intro w hw hmem
    have := List.mem_filter.mp hmem
    rw [hw] at this
    simp at this

/-- Witness for C6 at concrete data: a dead enemy co-located with the
player, a projectile over it, and a one-element delta enemy list. -/
theorem C6_witness :
    (let upd : Agi.Enemy → ℚ × ℚ := fun e => (e.x, e.y)
     let pull : Agi.Kirby → Agi.Enemy → ℚ × ℚ := fun _ e => (e.x, e.y)
     let k : Agi.Kirby := ⟨100, 400, 6, 0, Agi.Ability.none, 0, true, false, Agi.Ability.none⟩
     let e : Agi.Enemy := ⟨100, 400, 0, true, Agi.Ability.fire⟩
     let p : Agi.Projectile := ⟨100, 400, 2, false⟩
     Agi.enemyLoopBody upd pull k e = (k, e) ∧
     (Agi.projEnemyPass p [e]).1.get? 0 = some e ∧
     (e.takeDamage 1).dead = true ∧
     (∀ w ∈ Delta.pruneEnemies [⟨100, 400, 60, true, ()⟩], w.dead = false) ∧
     (∀ w : Delta.WaddleDee, w.dead = true →
        w ∉ Delta.pruneEnemies [⟨100, 400, 60, true, ()⟩])) :=
  C6_dead_exclusion (fun e => (e.x, e.y)) (fun _ e => (e.x, e.y))
    ⟨100, 400, 6, 0, Agi.Ability.none, 0, true, false, Agi.Ability.none⟩
    ⟨100, 400, 0, true, Agi.Ability.fire⟩ rfl
    ⟨100, 400, 2, false⟩ [⟨100, 400, 0, true, Agi.Ability.fire⟩] 0
    ⟨100, 400, 0, true, Agi.Ability.fire⟩ rfl rfl 1 [⟨100, 400, 60, true, ()⟩]

/-- C7: capture/inhale round-trip. If the player is inhaling with no
ability and, at some frame, a live enemy carrying ability `A` overlaps the
player within swallow distance (`distance < 30`, stated on squares), the
enemy loop swallows it: the enemy dies and the player stores `A`; when the
inhale key is then released, `Kirby.update`'s inhale branch sets
`player.ability = A`. Intermediate pull frames (overlap within the inhale
range but outside swallow distance) leave the player and the enemy's
`dead`/`ability` fields unchanged — only the enemy's position moves — so
the outcome does not depend on how many frames the pull took. -/
theorem C7_capture_roundtrip (upd : Agi.Enemy → ℚ × ℚ)
    (pull : Agi.Kirby → Agi.Enemy → ℚ × ℚ) (k : Agi.Kirby) (e : Agi.Enemy)
    (A : Agi.Ability) (hA : e.ability = A) (hdead : e.dead = false)
    (hin : k.inhaling = true) (hab : k.ability = Agi.Ability.none)
    (hcol : colliderect
      (Agi.Enemy.rect { e with x := (upd e).1, y := (upd e).2 }) k.rect = true)
    (hnear : ((upd e).1 - k.x) ^ 2 + ((upd e).2 - k.y) ^ 2 < 30 ^ 2) :
    (((Agi.enemyLoopBody upd pull k e).1.inhaleStep false).ability = A ∧
     (Agi.enemyLoopBody upd pull k e).2.dead = true ∧
     ((Agi.enemyLoopBody upd pull k e).1.inhaleStep false).hasEnemy = false ∧
     ((Agi.enemyLoopBody upd pull k e).1.inhaleStep false).inhaling = false) ∧
    (∀ e3 : Agi.Enemy, e3.dead = false →
      colliderect
        (Agi.Enemy.rect { e3 with x := (upd e3).1, y := (upd e3).2 }) k.rect = true →
      30 ^ 2 ≤ ((upd e3).1 - k.x) ^ 2 + ((upd e3).2 - k.y) ^ 2 →
      ((upd e3).1 - k.x) ^ 2 + ((upd e3).2 - k.y) ^ 2 < 120 ^ 2 →
      (Agi.enemyLoopBody upd pull k e3).1 = k ∧
      (Agi.enemyLoopBody upd pull k e3).2.dead = false ∧
      (Agi.enemyLoopBody upd pull k e3).2.ability = e3.ability) := by
  have hfar : ((upd e).1 - k.x) ^ 2 + ((upd e).2 - k.y) ^ 2 < 120 ^ 2 := by
    have h900 : ((30 : ℚ)) ^ 2 ≤ 120 ^ 2 := by norm_num
    linarith
  have hbody : Agi.enemyLoopBody upd pull k e
      = ({ k with hasEnemy := true, storedAbility := e.ability },
         { e with
            x := (pull k { e with x := (upd e).1, y := (upd e).2 }).1,
            y := (pull k { e with x := (upd e).1, y := (upd e).2 }).2,
            dead := true }) := by
    have hcol' := hcol
    rw [hdead] at hcol'
    simp only [Agi.enemyLoopBody, hdead]
    simp only [Bool.false_eq_true, if_false]
    rw [if_pos hcol']
    rw [if_pos (⟨hin, hab⟩ : k.inhaling = true ∧ k.ability = Agi.Ability.none)]
    rw [if_pos hfar]
    rw [if_pos hnear]
  constructor
  · rw [hbody]
    have hrel : Agi.Kirby.inhaleStep
        { k with hasEnemy := true, storedAbility := e.ability } false
        = { k with hasEnemy := false, storedAbility := e.ability,
                   ability := e.ability, inhaling := false } := by
      simp only [Agi.Kirby.inhaleStep]
      rw [if_neg (by simp)]
      rw [if_pos (by simp [hin])]
    rw [hrel]
    exact ⟨hA, rfl, rfl, rfl⟩
  · intro e3 hd3 hcol3 hfar3 hrange3
    have hbody3 : Agi.enemyLoopBody upd pull k e3
        = (k, { e3 with
            x := (pull k { e3 with x := (upd e3).1, y := (upd e3).2 }).1,
            y := (pull k { e3 with x := (upd e3).1, y := (upd e3).2 }).2 }) := by
      have hcol3' := hcol3
      rw [hd3] at hcol3'
      simp only [Agi.enemyLoopBody, hd3]
      simp only [Bool.false_eq_true, if_false]
      rw [if_pos hcol3']
      rw [if_pos (⟨hin, hab⟩ : k.inhaling = true ∧ k.ability = Agi.Ability.none)]
      rw [if_pos hrange3]
      rw [if_neg (not_lt.mpr hfar3)]
    rw [hbody3]
    exact ⟨rfl, hd3, rfl⟩

/-- Witness for C7: player at (100, 400) inhaling with no ability, a live
fire enemy at (110, 400); identity update and pull displacements. -/
theorem C7_witness :
    (let upd : Agi.Enemy → ℚ × ℚ := fun e => (e.x, e.y)
     let pull : Agi.Kirby → Agi.Enemy → ℚ × ℚ := fun _ e => (e.x, e.y)
     let k : Agi.Kirby := ⟨100, 400, 6, 0, Agi.Ability.none, 0, true, false, Agi.Ability.none⟩
     let e : Agi.Enemy := ⟨110, 400, 3, false, Agi.Ability.fire⟩
     (((Agi.enemyLoopBody upd pull k e).1.inhaleStep false).ability = Agi.Ability.fire ∧
      (Agi.enemyLoopBody upd pull k e).2.dead = true ∧
      ((Agi.enemyLoopBody upd pull k e).1.inhaleStep false).hasEnemy = false ∧
      ((Agi.enemyLoopBody upd pull k e).1.inhaleStep false).inhaling = false) ∧
     (∀ e3 : Agi.Enemy, e3.dead = false →
       colliderect
         (Agi.Enemy.rect { e3 with x := (upd e3).1, y := (upd e3).2 }) k.rect = true →
       30 ^ 2 ≤ ((upd e3).1 - k.x) ^ 2 + ((upd e3).2 - k.y) ^ 2 →
       ((upd e3).1 - k.x) ^ 2 + ((upd e3).2 - k.y) ^ 2 < 120 ^ 2 →
       (Agi.enemyLoopBody upd pull k e3).1 = k ∧
       (Agi.enemyLoopBody upd pull k e3).2.dead = false ∧
       (Agi.enemyLoopBody upd pull k e3).2.ability = e3.ability)) :=
  C7_capture_roundtrip (fun e => (e.x, e.y)) (fun _ e => (e.x, e.y))
    ⟨100, 400, 6, 0, Agi.Ability.none, 0, true, false, Agi.Ability.none⟩
    ⟨110, 400, 3, false, Agi.Ability.fire⟩ Agi.Ability.fire rfl rfl rfl rfl
    (by norm_num [Agi.Enemy.rect, Agi.Kirby.rect, colliderect, Rect.right, Rect.bottom, pyInt])
    (by norm_num)

theorem Tvk.LevelManager.spawnPhase_advance (lm : Tvk.LevelManager) (dt : ℚ)
    (hfw : lm.finalWaveSpawned = false)
    (hfull : lm.maxEnemiesPerWave ≤ lm.enemiesInWave) :
    lm.spawnPhase dt 0
      = { lm with waveNumber := lm.waveNumber + 1,
                  maxEnemiesPerWave := min 30 (10 + (lm.waveNumber + 1) * 5),
                  enemiesInWave := 0,
                  spawnTimer := 5 } := by
  rw [Tvk.LevelManager.spawnPhase]
  rw [if_neg (by rw [hfw]; exact Bool.false_ne_true)]
  dsimp only
  rw [if_neg (show ¬ (lm.spawnTimer - dt ≤ 0 ∧ lm.enemiesInWave < lm.maxEnemiesPerWave)
        from fun h => absurd h.2 (not_lt.mpr hfull))]
  rw [if_pos (show lm.maxEnemiesPerWave ≤ lm.enemiesInWave ∧ (0 : ℕ) = 0
        from ⟨hfull, rfl⟩)]

theorem Tvk.LevelManager.update_wave_fields (lm : Tvk.LevelManager) (dt : ℚ) (n : ℕ) :
    (lm.update dt n).waveNumber
        = (Tvk.LevelManager.spawnPhase { lm with
            time := lm.time + dt,
            difficulty := min 1 ((lm.time + dt) / lm.duration) } dt n).waveNumber ∧
    (lm.update dt n).enemiesInWave
        = (Tvk.LevelManager.spawnPhase { lm with
            time := lm.time + dt,
            difficulty := min 1 ((lm.time + dt) / lm.duration) } dt n).enemiesInWave ∧
    (lm.update dt n).maxEnemiesPerWave
        = (Tvk.LevelManager.spawnPhase { lm with
            time := lm.time + dt,
            difficulty := min 1 ((lm.time + dt) / lm.duration) } dt n).maxEnemiesPerWave := by
  simp only [Tvk.LevelManager.update]
  generalize Tvk.LevelManager.spawnPhase { lm with
      time := lm.time + dt,
      difficulty := min 1 ((lm.time + dt) / lm.duration) } dt n = B
  by_cases h1 : B.duration ≤ B.time ∧ ¬ (B.finalWaveSpawned = true)
  · rw [if_pos h1]
    by_cases h2 : ({ B with finalWaveSpawned := true } :
        Tvk.LevelManager).finalWaveSpawned = true ∧ n = 0
    · rw [if_pos h2]; exact ⟨rfl, rfl, rfl⟩
    · rw [if_neg h2]; exact ⟨rfl, rfl, rfl⟩
  · rw [if_neg h1]
    by_cases h2 : B.finalWaveSpawned = true ∧ n = 0
    · rw [if_pos h2]; exact ⟨rfl, rfl, rfl⟩
    · rw [if_neg h2]; exact ⟨rfl, rfl, rfl⟩

/-- C8: the wave director. The cap starts at 10, and when the per-wave
spawn counter has reached the cap and no enemy is alive, `update`
increments `wave_number`, resets the counter to 0 and sets the cap to
`min(30, 10 + wave_number * 5)` for the incremented wave number. -/
theorem C8_wave_advance (lm : Tvk.LevelManager) (dt : ℚ)
    (hfw : lm.finalWaveSpawned = false)
    (hfull : lm.maxEnemiesPerWave ≤ lm.enemiesInWave) :
    Tvk.LevelManager.init.maxEnemiesPerWave = 10 ∧
    (lm.update dt 0).waveNumber = lm.waveNumber + 1 ∧
    (lm.update dt 0).enemiesInWave = 0 ∧
    (lm.update dt 0).maxEnemiesPerWave = min 30 (10 + (lm.waveNumber + 1) * 5) := by
  obtain ⟨h1, h2, h3⟩ := Tvk.LevelManager.update_wave_fields lm dt 0
  have ha := Tvk.LevelManager.spawnPhase_advance
      { lm with
        time := lm.time + dt,
        difficulty := min 1 ((lm.time + dt) / lm.duration) }
      dt hfw hfull
  refine ⟨rfl, ?_, ?_, ?_⟩
  · rw [h1, ha]
  · rw [h2, ha]
  · rw [h3, ha]

/-- Witness for C8: a director mid-game (10 of 10 spawned, no enemy
alive): the wave becomes 2 and the cap min(30, 20) = 20. -/
theorem C8_witness :
    (let lm : Tvk.LevelManager := ⟨3, 120, false, 1, 0, false, 1, 10, 10⟩
     Tvk.LevelManager.init.maxEnemiesPerWave = 10 ∧
     (lm.update (1/60) 0).waveNumber = lm.waveNumber + 1 ∧
     (lm.update (1/60) 0).enemiesInWave = 0 ∧
     (lm.update (1/60) 0).maxEnemiesPerWave = min 30 (10 + (lm.waveNumber + 1) * 5)) :=
  C8_wave_advance ⟨3, 120, false, 1, 0, false, 1, 10, 10⟩ (1/60) rfl (by norm_num)

theorem Agi.Kirby.tickList_ability (k : Agi.Kirby) (dts : List ℚ) :
    (k.tickList dts).ability = k.ability := by
  induction dts generalizing k with
  | nil => rfl
  | cons d ds ih => simpa [Agi.Kirby.tickList, List.foldl] using ih (k.tickTimers d)

/-- C9: the ability cooldown. A press with an ability equipped and
`ability_cooldown <= 0` runs `use_ability` (the only place ability
projectiles/particles/self-buffs are produced), which sets the cooldown to
0.5; a second press after frames totalling less than 0.5 s changes nothing
— the use counter stays put and the player state is untouched. -/
theorem C9_ability_cooldown_gate (k : Agi.Kirby) (uses : ℕ)
    (hab : k.ability ≠ Agi.Ability.none) (hcd : k.abilityCooldown ≤ 0)
    (dts : List ℚ) (hsum : dts.sum < 1/2) :
    Agi.abilityPress k uses = (k.useAbility, uses + 1) ∧
    Agi.abilityPress (k.useAbility.tickList dts) (uses + 1)
      = (k.useAbility.tickList dts, uses + 1) := by
  constructor
  · simp only [Agi.abilityPress]
    rw [if_pos hab, if_pos hcd]
  · have hcd2 : 0 < (k.useAbility.tickList dts).abilityCooldown := by
      have h := Agi.Kirby.tickList_cooldown_lower k.useAbility dts
      have h12 : k.useAbility.abilityCooldown = 1/2 := rfl
      rw [h12] at h
      linarith
    have hab2 : (k.useAbility.tickList dts).ability ≠ Agi.Ability.none := by
      rw [Agi.Kirby.tickList_ability]
      exact hab
    simp only [Agi.abilityPress]
    rw [if_pos hab2, if_neg (not_le.mpr hcd2)]

/-- Witness for C9: a fire-ability player with zero cooldown, two 0.1 s
frames between the presses. -/
theorem C9_witness :
    (let k : Agi.Kirby := ⟨100, 400, 6, 0, Agi.Ability.fire, 0, false, false, Agi.Ability.none⟩
     Agi.abilityPress k 0 = (k.useAbility, 1) ∧
     Agi.abilityPress (k.useAbility.tickList [1/10, 1/10]) 1
       = (k.useAbility.tickList [1/10, 1/10], 1)) :=
  C9_ability_cooldown_gate
    ⟨100, 400, 6, 0, Agi.Ability.fire, 0, false, false, Agi.Ability.none⟩ 0
    (by simp) (by norm_num) [1/10, 1/10] (by norm_num)

/-- C10: placement atomicity of `try_place`. On an occupied cell or with
insufficient sun the call returns `False` and the whole state — grid, sun
count, sprite group, card stamp — is untouched; otherwise exactly one
plant is installed in the target cell (every other cell unchanged), the
cost is deducted, the sprite group grows by one and the call returns
`True`. -/
theorem C10_try_place_atomic (s : Tvk.PlaceState) (row col : ℕ) (cost : ℤ)
    (pid : ℕ) (card : Bool) (now : ℤ) (cell : Option ℕ)
    (hcell : Tvk.cellAt s.grid row col = some cell) :
    ((∃ q, cell = some q) ∨ s.sunCount < cost →
      Tvk.tryPlace s row col cost pid card now = (s, false)) ∧
    (cell = Option.none → cost ≤ s.sunCount →
      (Tvk.tryPlace s row col cost pid card now).2 = true ∧
      Tvk.cellAt (Tvk.tryPlace s row col cost pid card now).1.grid row col
        = some (some pid) ∧
      (Tvk.tryPlace s row col cost pid card now).1.sunCount = s.sunCount - cost ∧
      (Tvk.tryPlace s row col cost pid card now).1.plantSprites = s.plantSprites + 1 ∧
      ∀ r' c' : ℕ, ¬ (r' = row ∧ c' = col) →
        Tvk.cellAt (Tvk.tryPlace s row col cost pid card now).1.grid r' c'
          = Tvk.cellAt s.grid r' c') := by
  have hcell' := hcell
  simp only [Tvk.cellAt] at hcell'
  obtain ⟨r0, hr0, hc0⟩ := Option.bind_eq_some.mp hcell'
  constructor
  · rintro (⟨q, hq⟩ | hsun)
    · simp only [Tvk.tryPlace]
      rw [hcell, hq]
    · cases cell with
      | none =>
          simp only [Tvk.tryPlace]
          rw [hcell]
          dsimp only
          rw [if_pos hsun]
      | some q =>
          simp only [Tvk.tryPlace]
          rw [hcell]
  · intro hnone hsun
    rw [hnone] at hcell
    have hred : Tvk.tryPlace s row col cost pid card now
        = ({ s with
              grid := s.grid.set row ((s.grid.getD row []).set col (some pid)),
              sunCount := s.sunCount - cost,
              plantSprites := s.plantSprites + 1,
              cardLastPlantedMs := if card then some now else s.cardLastPlantedMs },
           true) := by
      simp only [Tvk.tryPlace]
      rw [hcell]
      dsimp only
      rw [if_neg (not_lt.mpr hsun)]
    have hgetD : s.grid.getD row [] = r0 := by
      rw [List.getD_eq_getD_get?, hr0]
      rfl
    obtain ⟨hltrow, -⟩ := List.get?_eq_some.mp hr0
    obtain ⟨hltcol, -⟩ := List.get?_eq_some.mp hc0
    refine ⟨by rw [hred], ?_, by rw [hred], by rw [hred], ?_⟩
    · rw [hred]
      simp only [Tvk.cellAt, hgetD]
      rw [List.get?_set_eq_of_lt _ hltrow]
      simp only [Option.some_bind]
      rw [List.get?_set_eq_of_lt _ hltcol]
    · intro r' c' hne
      rw [hred]
      simp only [Tvk.cellAt, hgetD]
      by_cases hr : r' = row
      · subst hr
        have hc : c' ≠ col := fun h => hne ⟨rfl, h⟩
        rw [List.get?_set_eq_of_lt _ hltrow, hr0]
        simp only [Option.some_bind]
        rw [List.get?_set_ne _ _ (fun h => hc h.symm)]
      · rw [List.get?_set_ne _ _ (fun h => hr h.symm)]

/-- Witness for C10: a 2x2 grid with (0,0) free and (0,1) occupied,
100 sun, a 50-cost plant placed at (0,0). -/
theorem C10_witness :
    (let s : Tvk.PlaceState :=
       ⟨[[Option.none, some 7], [Option.none, Option.none]], 100, 1, Option.none⟩
     ((∃ q, (Option.none : Option ℕ) = some q) ∨ s.sunCount < 50 →
        Tvk.tryPlace s 0 0 50 3 true 1000 = (s, false)) ∧
     ((Option.none : Option ℕ) = Option.none → 50 ≤ s.sunCount →
        (Tvk.tryPlace s 0 0 50 3 true 1000).2 = true ∧
        Tvk.cellAt (Tvk.tryPlace s 0 0 50 3 true 1000).1.grid 0 0 = some (some 3) ∧
        (Tvk.tryPlace s 0 0 50 3 true 1000).1.sunCount = s.sunCount - 50 ∧
        (Tvk.tryPlace s 0 0 50 3 true 1000).1.plantSprites = s.plantSprites + 1 ∧
        ∀ r' c' : ℕ, ¬ (r' = 0 ∧ c' = 0) →
          Tvk.cellAt (Tvk.tryPlace s 0 0 50 3 true 1000).1.grid r' c'
            = Tvk.cellAt s.grid r' c')) :=
  C10_try_place_atomic
    ⟨[[Option.none, some 7], [Option.none, Option.none]], 100, 1, Option.none⟩
    0 0 50 3 true 1000 Option.none rfl
